import Mathlib

/-!
Verification development for the core.io-pubsub-mqtt repository.

The authoritative implementation is the feature-complete variant in
`src/unnamed/part_000` (configurable response keys, response middleware,
backoff-aware reconnection); `src/unnamed/part_004` is the backoff module.
JavaScript values are embedded as `JsValue`, JS objects as insertion-ordered
association lists with unique keys, and the settle-once semantics of an ES
Promise as an explicit `PromiseState` that ignores late resolve/reject calls.
-/

namespace PubSubMQTT

/-- A JavaScript/JSON value: null, booleans, numbers, strings, arrays and
plain objects (insertion-ordered field lists).  Numbers are embedded as
integers: no claim of this development depends on fractional numeric
values. -/
inductive JsValue where
  | vNull : JsValue
  | vBool : Bool → JsValue
  | vNum : Int → JsValue
  | vStr : String → JsValue
  | vArr : List JsValue → JsValue
  | vObj : List (String × JsValue) → JsValue
deriving Repr

/-- JavaScript truthiness of a value (`!data[field]` checks in the
transforms): null, false, 0 and the empty string are falsy; arrays and
objects are always truthy. -/
def truthy : JsValue → Bool
  | .vNull => false
  | .vBool b => b
  | .vNum n => n != 0
  | .vStr s => s != ""
  | .vArr _ => true
  | .vObj _ => true

/-- Property read `obj[k]` on a JS object: the value at the first (unique)
occurrence of key `k`, or `none` when the key is absent. -/
def getField (fs : List (String × JsValue)) (k : String) : Option JsValue :=
  match fs with
  | [] => none
  | (k', v) :: rest => if k' == k then some v else getField rest k

/-- Property write `obj[k] = v` on a JS object: replaces the value in place
when the key exists (keeping insertion order), otherwise appends the new
key at the end, exactly as JS property assignment does. -/
def setField (fs : List (String × JsValue)) (k : String) (v : JsValue) :
    List (String × JsValue) :=
  match fs with
  | [] => [(k, v)]
  | (k', w) :: rest =>
    if k' == k then (k', v) :: rest else (k', w) :: setField rest k v

theorem getField_setField_self (fs : List (String × JsValue)) (k : String)
    (v : JsValue) : getField (setField fs k v) k = some v := by
  induction fs with
  | nil => simp [setField, getField]
  | cons p rest ih =>
    obtain ⟨k', w⟩ := p
    by_cases h : k' == k <;> simp [setField, getField, h, ih]

theorem getField_setField_ne (fs : List (String × JsValue)) (k k' : String)
    (v : JsValue) (h : k ≠ k') :
    getField (setField fs k v) k' = getField fs k' := by
  induction fs with
  | nil =>
    simp [setField, getField]
    intro hc
    exact absurd hc h
  | cons p rest ih =>
    obtain ⟨k₀, w⟩ := p
    by_cases h0 : k₀ == k
    · have hk0 : k₀ = k := by simpa using h0
      subst hk0
      have : ¬ (k₀ == k') := by simpa using h
      simp [setField, getField, this]
    · simp [setField, getField, h0, ih]

/-!
Backoff scheduler, embedded from `src/unnamed/part_004`.  The JS module is a
single module-level object literal holding both the configuration fields
(`initialDelay: 100, maxDelay: 30000, randomizationFactor: 0, factor: 3`)
and the mutable fields (`nextBackoffDelay`, `backoffDelay`, `delay`, all
initially absent, i.e. `undefined`).  The guard `if (!backoff.nextBackoffDelay)`
tests JS falsiness, which conflates `undefined` and `0`, so the mutable
fields are embedded as `Nat` with `0` standing for both.
-/

/-- The state of the backoff module object from `src/unnamed/part_004`. -/
structure BackoffSt where
  initialDelay : Nat
  maxDelay : Nat
  factor : Nat
  nextBackoffDelay : Nat
  backoffDelay : Nat
  delay : Nat
deriving Repr, DecidableEq

/-- The module-level object literal as first loaded: configuration
`initialDelay: 100, maxDelay: 30000, factor: 3` with the mutable fields
still `undefined` (falsy, embedded as 0).  `randomizationFactor` is the
constant `0` in the module and is never written anywhere in the repository,
so it is folded into `backoffNext` below. -/
def backoffModuleInit : BackoffSt :=
  { initialDelay := 100, maxDelay := 30000, factor := 3,
    nextBackoffDelay := 0, backoffDelay := 0, delay := 0 }

/-- `backoff.computeDelay()`: re-seed `nextBackoffDelay` from `initialDelay`
when it is falsy, clamp by `maxDelay`, advance the geometric sequence, and
return the clamped delay. -/
def computeDelay (b : BackoffSt) : Nat × BackoffSt :=
  let nbd := if b.nextBackoffDelay = 0 then b.initialDelay else b.nextBackoffDelay
  let bd := min nbd b.maxDelay
  (bd, { b with backoffDelay := bd, nextBackoffDelay := bd * b.factor })

/-- `backoff.next()`: with the module's constant `randomizationFactor = 0`
the random scale is `1 + Math.random() * 0 = 1`, so
`Math.round(backoffDelay * 1)` is `backoffDelay` itself. -/
def backoffNext (b : BackoffSt) : Nat × BackoffSt :=
  let (bd, b') := computeDelay b
  (bd, { b' with delay := bd })

/-- `backoff.reset()`: zero the published delays and restart the sequence at
`initialDelay`. -/
def backoffReset (b : BackoffSt) : BackoffSt :=
  { b with backoffDelay := 0, delay := 0, nextBackoffDelay := b.initialDelay }

/-- The value returned by the `n`-th call to `backoff.next()` (counting from
0) starting from state `b`. -/
def nthDelay (b : BackoffSt) : Nat → Nat
  | 0 => (backoffNext b).1
  | n + 1 => nthDelay (backoffNext b).2 n

/-- The backoff state after `n` calls to `backoff.next()` from state `b`. -/
def afterCalls (b : BackoffSt) : Nat → BackoffSt
  | 0 => b
  | n + 1 => afterCalls (backoffNext b).2 n

theorem afterCalls_succ_out (b : BackoffSt) (n : Nat) :
    afterCalls b (n + 1) = (backoffNext (afterCalls b n)).2 := by
  induction n generalizing b with
  | zero => rfl
  | succ n ih => exact ih (backoffNext b).2

theorem nthDelay_eq_afterCalls (b : BackoffSt) (n : Nat) :
    nthDelay b n = (backoffNext (afterCalls b n)).1 := by
  induction n generalizing b with
  | zero => rfl
  | succ n ih => exact ih (backoffNext b).2

/-- A fresh backoff state with the given configuration and the mutable
fields still unset, as on module load or right after `reset()` with
`initialDelay = I` (for `reset()` the seed is `I` rather than 0, but both
re-seed to `I` on the next `computeDelay`). -/
def freshBackoff (I M f : Nat) : BackoffSt :=
  { initialDelay := I, maxDelay := M, factor := f,
    nextBackoffDelay := 0, backoffDelay := 0, delay := 0 }

/-- The falsy re-seeding read of `nextBackoffDelay` performed by
`computeDelay`. -/
def reseed (I x : Nat) : Nat := if x = 0 then I else x

theorem backoffNext_fst (b : BackoffSt) :
    (backoffNext b).1 = min (reseed b.initialDelay b.nextBackoffDelay) b.maxDelay := by
  simp [backoffNext, computeDelay, reseed]

theorem backoffNext_snd_nbd (b : BackoffSt) :
    (backoffNext b).2.nextBackoffDelay =
      min (reseed b.initialDelay b.nextBackoffDelay) b.maxDelay * b.factor := by
  simp [backoffNext, computeDelay, reseed]

theorem backoffNext_snd_config (b : BackoffSt) :
    (backoffNext b).2.initialDelay = b.initialDelay ∧
    (backoffNext b).2.maxDelay = b.maxDelay ∧
    (backoffNext b).2.factor = b.factor := by
  refine ⟨?_, ?_, ?_⟩ <;> simp [backoffNext, computeDelay]

/-- Key arithmetic step: folding one more factor into the clamped
geometric sequence, for any factor `f ≥ 1`. -/
theorem min_reseed_step (I M f A : Nat) (hf : 1 ≤ f) (hA0 : A = 0 → I = 0) :
    min (reseed I (min A M * f)) M = min (A * f) M := by
  by_cases h0 : min A M * f = 0
  · rcases Nat.mul_eq_zero.mp h0 with h | h
    · rcases Nat.min_eq_zero_iff.mp h with hA | hM
      · have hI : I = 0 := hA0 hA
        subst hA hI
        simp [reseed, h0]
      · subst hM
        simp [reseed, h0]
    · omega
  · have hr : reseed I (min A M * f) = min A M * f := by
      simp [reseed, h0]
    rw [hr]
    rcases Nat.le_total A M with hle | hle
    · rw [Nat.min_eq_left hle]
    · rw [Nat.min_eq_right hle]
      have h1 : M ≤ M * f := Nat.le_mul_of_pos_right _ (by omega)
      have h2 : M ≤ A * f := le_trans hle (Nat.le_mul_of_pos_right _ (by omega))
      rw [Nat.min_eq_right h1, Nat.min_eq_right h2]

/-- Invariant: after `n` calls from a fresh state, the re-seeded read of
`nextBackoffDelay` clamped by `maxDelay` is exactly `min (I * f^n) M`,
and the configuration fields are untouched. -/
theorem afterCalls_invariant (I M f : Nat) (hf : 1 ≤ f) (n : Nat) :
    (afterCalls (freshBackoff I M f) n).initialDelay = I ∧
    (afterCalls (freshBackoff I M f) n).maxDelay = M ∧
    (afterCalls (freshBackoff I M f) n).factor = f ∧
    min (reseed I (afterCalls (freshBackoff I M f) n).nextBackoffDelay) M =
      min (I * f ^ n) M := by
  induction n with
  | zero => simp [afterCalls, freshBackoff, reseed]
  | succ n ih =>
    obtain ⟨hI, hM, hF, hinv⟩ := ih
    rw [afterCalls_succ_out]
    obtain ⟨cI, cM, cF⟩ := backoffNext_snd_config (afterCalls (freshBackoff I M f) n)
    refine ⟨by rw [cI, hI], by rw [cM, hM], by rw [cF, hF], ?_⟩
    have hA0 : I * f ^ n = 0 → I = 0 := by
      intro h
      rcases Nat.mul_eq_zero.mp h with h | h
      · exact h
      · exact absurd h (by positivity)
    rw [backoffNext_snd_nbd, hI, hM, hF, hinv, min_reseed_step I M f _ hf hA0,
      pow_succ, ← Nat.mul_assoc]

/-- Closed form for the backoff delays: counting from 0, the `n`-th call to
`next()` from a fresh state with factor `f ≥ 1` returns
`min (initialDelay * factor ^ n) maxDelay`. -/
theorem nthDelay_closed_form (I M f : Nat) (hf : 1 ≤ f) (n : Nat) :
    nthDelay (freshBackoff I M f) n = min (I * f ^ n) M := by
  obtain ⟨hI, hM, hF, hinv⟩ := afterCalls_invariant I M f hf n
  rw [nthDelay_eq_afterCalls, backoffNext_fst, hI, hM, hinv]

/-- After a `reset()`, the very next `next()` returns
`min initialDelay maxDelay`, for every prior state. -/
theorem backoffNext_after_reset (b : BackoffSt) :
    (backoffNext (backoffReset b)).1 = min b.initialDelay b.maxDelay := by
  by_cases h : b.initialDelay = 0 <;>
    simp [backoffNext, computeDelay, backoffReset, h]

/-- Claim C5: with `initialDelay = 100`, `factor = 3`, `maxDelay = 1000` and
`randomizationFactor = 0`, successive `backoff.next()` calls return
100, 300, 900, 1000, 1000; after `reset()` the next call returns 100 again;
and in general the `n`-th delay (counting from 0) is
`min (initialDelay * factor ^ n) maxDelay` (for any backoff factor ≥ 1,
such as the module's factor 3). -/
theorem backoff_sequence_spec :
    (nthDelay (freshBackoff 100 1000 3) 0 = 100 ∧
     nthDelay (freshBackoff 100 1000 3) 1 = 300 ∧
     nthDelay (freshBackoff 100 1000 3) 2 = 900 ∧
     nthDelay (freshBackoff 100 1000 3) 3 = 1000 ∧
     nthDelay (freshBackoff 100 1000 3) 4 = 1000) ∧
    (∀ b : BackoffSt, b.initialDelay = 100 → b.maxDelay = 1000 →
      (backoffNext (backoffReset b)).1 = 100) ∧
    (∀ I M f n : Nat, 1 ≤ f → nthDelay (freshBackoff I M f) n = min (I * f ^ n) M) := by
  refine ⟨by decide, ?_, ?_⟩
  · intro b hI hM
    rw [backoffNext_after_reset, hI, hM]
    decide
  · intro I M f n hf
    exact nthDelay_closed_form I M f hf n

theorem backoff_sequence_spec_witness :
    (backoffNext (backoffReset (freshBackoff 100 1000 3))).1 = 100 ∧
    nthDelay (freshBackoff 100 1000 3) 5 = 1000 := by
  refine ⟨backoff_sequence_spec.2.1 (freshBackoff 100 1000 3) rfl rfl, ?_⟩
  rw [backoff_sequence_spec.2.2 100 1000 3 5 (by decide)]
  decide

/-!
Claim C6 context.  `src/unnamed/part_000` line 89 does
`const backoff = require('./backoff')`, and `src/unnamed/part_004` exports a
module-level object literal (`module.exports = backoff`).  Node caches
modules, so every client created by `$initPubSubMQTT` in one process closes
over the *same* backoff object.  A client's `reconnect` listener calls
`backoff.next()` (line 640) and its `connect` listener calls
`backoff.reset()` (line 515), both on that shared object.
-/

/-- The backoff-relevant state of a process hosting several pubsub clients:
a single shared backoff module object. -/
structure TwoClientWorld where
  shared : BackoffSt
deriving Repr, DecidableEq

/-- One client's `client.on('reconnect')` backoff activity: `backoff.next()`
on the shared module object; the returned delay becomes that client's
`client.options.reconnectPeriod`. -/
def clientReconnectTick (w : TwoClientWorld) : Nat × TwoClientWorld :=
  let (d, b) := backoffNext w.shared
  (d, ⟨b⟩)

/-- One client's `client.on('connect')` backoff activity: `backoff.reset()`
on the shared module object. -/
def clientConnect (w : TwoClientWorld) : TwoClientWorld :=
  ⟨backoffReset w.shared⟩

/-- Claim C6 counterexample: in a freshly loaded process, a client on its
own would observe delay 100 on its first reconnect tick; but after another
client performs one reconnect tick, the first client observes 300, and
after two ticks it would observe 900 — while a `connect` (hence
`backoff.reset()`) of the *other* client drops it back to 100.  So one
client's reconnect activity does change the delay sequence the other
observes, and one client's successful connect does reset the other's
sequence, contrary to the claim. -/
theorem backoff_shared_counterexample :
    (clientReconnectTick ⟨backoffModuleInit⟩).1 = 100 ∧
    (clientReconnectTick (clientReconnectTick ⟨backoffModuleInit⟩).2).1 = 300 ∧
    (clientReconnectTick
      (clientReconnectTick (clientReconnectTick ⟨backoffModuleInit⟩).2).2).1 = 900 ∧
    (clientReconnectTick (clientConnect
      (clientReconnectTick (clientReconnectTick ⟨backoffModuleInit⟩).2).2)).1 = 100 := by
  decide

/-- Claim C6 amended: backoff state is a module-level singleton shared by
every client in the process.  After any other client has performed `k`
reconnect ticks on the freshly loaded module state, a client's next tick
observes the `k`-th element `min (100 * 3^k) 30000` of the single shared
sequence (not the 0-th element 100), and any client's successful connect
resets the shared sequence for everyone: the next tick after a reset
returns `min initialDelay maxDelay` regardless of prior activity. -/
theorem backoff_shared_sequence (k : Nat) (w : TwoClientWorld) :
    (clientReconnectTick ⟨afterCalls backoffModuleInit k⟩).1 = min (100 * 3 ^ k) 30000 ∧
    (clientReconnectTick (clientConnect w)).1 =
      min w.shared.initialDelay w.shared.maxDelay := by
  constructor
  · have h : (clientReconnectTick ⟨afterCalls backoffModuleInit k⟩).1 =
        nthDelay backoffModuleInit k := by
      rw [nthDelay_eq_afterCalls]
      rfl
    rw [h]
    have hfresh : backoffModuleInit = freshBackoff 100 30000 3 := rfl
    rw [hfresh, nthDelay_closed_form 100 30000 3 (by decide) k]
  · have h : (clientReconnectTick (clientConnect w)).1 =
        (backoffNext (backoffReset w.shared)).1 := rfl
    rw [h, backoffNext_after_reset]

/-!
Topic matching.  The dispatch loop in `src/unnamed/part_000` (line 556) and
`src/lib/init.js` (line 179) calls `match(key, topic)` from the external
`mqtt-match` npm dependency, whose source is not part of this repository.
-/

/-- Split a character list at `/` separators, as `topic.split('/')` does in
JS: the empty input yields one empty segment, and separators at the ends
yield empty segments. -/
def splitSegs : List Char → List String
  | [] => [""]
  | c :: cs =>
    if c = '/' then "" :: splitSegs cs
    else
      match splitSegs cs with
      | [] => [String.mk [c]]
      | s :: rest => String.mk (c :: s.data) :: rest

/-- Modelled from the spec: the `mqtt-match` dependency is not in this
repository's sources, so segment matching follows spec section 4.1.
Matching proceeds segment by segment; a literal segment must equal the
topic's segment exactly; a final pattern segment of `#` matches zero or
more trailing segments (including none); a segment of `+` matches exactly
one arbitrary segment; otherwise pattern and topic must have the same
number of segments.  A `#` that is not the last pattern segment is
undefined by the spec and never matches here. -/
def matchSegs : List String → List String → Bool
  | [], ts => ts.isEmpty
  | p :: ps, ts =>
    if p = "#" then ps.isEmpty
    else
      match ts with
      | [] => false
      | t :: ts' => (p == "+" || p == t) && matchSegs ps ts'

/-- Modelled from the spec: `matches(pattern, topic)` splits both arguments
into `/`-separated segments and matches them with `matchSegs`. -/
def topicMatches (pattern topic : String) : Bool :=
  matchSegs (splitSegs pattern.data) (splitSegs topic.data)

theorem matchSegs_length {ps ts : List String} (hnh : "#" ∉ ps)
    (h : matchSegs ps ts = true) : ps.length = ts.length := by
  induction ps generalizing ts with
  | nil =>
    cases ts with
    | nil => rfl
    | cons t ts => simp [matchSegs] at h
  | cons p ps ih =>
    have hp : p ≠ "#" := fun hc => hnh (hc ▸ List.mem_cons_self p ps)
    rw [matchSegs.eq_def] at h
    simp only [if_neg hp] at h
    cases ts with
    | nil => exact absurd h (by simp)
    | cons t ts =>
      rw [Bool.and_eq_true] at h
      have hnh' : "#" ∉ ps := fun hc => hnh (List.mem_cons_of_mem p hc)
      simp [ih hnh' h.2]

/-- Claim C4: the five concrete wildcard examples, the step laws for `+`,
literals and trailing `#`, and the equal-segment-count law for patterns
without `#`.  `topicMatches` is modelled from the spec because the
`mqtt-match` dependency's source is not in the repository. -/
theorem mqtt_match_spec :
    topicMatches "a/+/c" "a/b/c" = true ∧
    topicMatches "a/+/c" "a/b/b/c" = false ∧
    topicMatches "a/#" "a/b/c" = true ∧
    topicMatches "a/#" "a" = true ∧
    topicMatches "a/+" "a" = false ∧
    (∀ ts : List String, matchSegs ["#"] ts = true) ∧
    (∀ (p : String) (ps : List String) (t : String) (ts : List String), p ≠ "#" →
      matchSegs (p :: ps) (t :: ts) = ((p == "+" || p == t) && matchSegs ps ts)) ∧
    (∀ ps ts : List String, "#" ∉ ps → matchSegs ps ts = true →
      ps.length = ts.length) := by
  refine ⟨by decide, by decide, by decide, by decide, by decide, ?_, ?_, ?_⟩
  · intro ts
    simp [matchSegs]
  · intro p ps t ts hp
    rw [matchSegs.eq_def]
    simp only [if_neg hp]
  · intro ps ts hnh h
    exact matchSegs_length hnh h

theorem mqtt_match_spec_witness :
    matchSegs ["a", "+"] ["a", "b"] = ((("a" : String) == "+" || "a" == "a") && matchSegs ["+"] ["b"]) ∧
    (["a", "+"] : List String).length = (["a", "b"] : List String).length := by
  constructor
  · have := mqtt_match_spec.2.2.2.2.2.2.1 "a" ["+"] "a" ["b"] (by decide)
    simpa using this
  · exact mqtt_match_spec.2.2.2.2.2.2.2 ["a", "+"] ["a", "b"] (by decide) (by decide)

/-!
Message dispatch, embedded from `src/unnamed/part_000` lines 549-596 (the
same loop appears in `src/lib/init.js` lines 172-198).  The `message`
listener does

    Object.keys(config.handlers).map((key) => {
        if (!match(key, topic)) return;
        let handler = pubsub._getHandlerForTopic(key);
        ...
        handler.call(context, topic, payload);
    });

There is no try/catch around `handler.call` (the only try/catch in the
listener guards `JSON.parse` of the message body), so an exception thrown
by a handler propagates out of the `.map` callback, aborting the iteration
over the remaining keys and escaping the `message` listener.  A handler's
observable behaviour for this claim is whether it throws, so handlers are
embedded as `HandlerSpec`.
-/

/-- What a registered handler does when invoked: return normally, or throw
an exception carrying a message. -/
inductive HandlerSpec where
  | ok : HandlerSpec
  | throws : String → HandlerSpec
deriving Repr, DecidableEq

/-- The dispatch loop of the `message` listener over the registered
handler table, restricted to the observable this claim is about: which
handlers run.  Returns the patterns whose handlers ran, in registration
order, or the first thrown exception (which aborts the iteration — there
is no try/catch around `handler.call`). -/
def dispatchMsg (hs : List (String × HandlerSpec)) (topic : String) :
    Except String (List String) :=
  match hs with
  | [] => .ok []
  | (key, h) :: rest =>
    if topicMatches key topic then
      match h with
      | .throws e => .error e
      | .ok =>
        match dispatchMsg rest topic with
        | .ok ran => .ok (key :: ran)
        | .error e => .error e
    else dispatchMsg rest topic

/-- Claim C3 counterexample: patterns `a/+` and `a/b` both match topic
`a/b`; the handler for `a/+` throws.  Dispatch aborts with the exception
instead of catching it, and the handler for `a/b` never runs — whereas the
claim says every other matching handler still runs and the loop does not
crash (which would give `.ok ["a/b"]` here, or `.ok` of both had the first
not thrown). -/
theorem dispatch_throw_counterexample :
    dispatchMsg [("a/+", .throws "boom"), ("a/b", .ok)] "a/b" = .error "boom" ∧
    dispatchMsg [("a/+", .ok), ("a/b", .ok)] "a/b" = .ok ["a/+", "a/b"] := by
  constructor <;> rfl

/-- Claim C3 amended: handler exceptions are NOT caught at the dispatch
boundary.  If every matching handler registered before pattern `k` returns
normally, `k` matches the topic and `k`'s handler throws, then dispatch
aborts with exactly that exception: no handler registered after `k` is
invoked and the exception escapes the message listener. -/
theorem dispatch_throw_propagates (pre post : List (String × HandlerSpec))
    (k e topic : String)
    (hpre : ∀ p ∈ pre, topicMatches p.1 topic = true → p.2 = .ok)
    (hk : topicMatches k topic = true) :
    dispatchMsg (pre ++ (k, .throws e) :: post) topic = .error e := by
  induction pre with
  | nil => simp [dispatchMsg, hk]
  | cons p rest ih =>
    obtain ⟨kp, hp⟩ := p
    by_cases hmatch : topicMatches kp topic = true
    · have hok : hp = .ok := hpre ⟨kp, hp⟩ (List.mem_cons_self _ _) hmatch
      subst hok
      have ihres := ih (fun q hq hm => hpre q (List.mem_cons_of_mem _ hq) hm)
      simp [dispatchMsg, hmatch, ihres]
    · have ihres := ih (fun q hq hm => hpre q (List.mem_cons_of_mem _ hq) hm)
      simp [dispatchMsg, hmatch, ihres]

theorem dispatch_throw_propagates_witness :
    dispatchMsg [("x/+", .ok), ("x/y", .throws "err"), ("x/#", .ok)] "x/y" =
      .error "err" :=
  dispatch_throw_propagates [("x/+", .ok)] [("x/#", .ok)] "x/y" "err" "x/y"
    (by intro p hp hm; simp at hp; simp [hp]) (by decide)

/-!
Request/response lifecycle, embedded from `pubsub.request` in
`src/unnamed/part_000` lines 320-376 together with the `message` dispatch
for the derived response topic (lines 549-596).

After the synchronous part of `request()` runs with a positive
`timeoutResponseAfter`, the relevant state is: the handler table entry for
`responseTopic` (the key is present and holds `$handler`; `$handler` later
overwrites it with `undefined` via `_setHandlerForTopic(responseTopic,
undefined)`, which keeps the key present), the pending `setTimeout` timer,
and the promise.  An ES promise settles at most once: `resolve`/`reject`
calls after the first settlement are ignored; that environment semantics is
`settleResolve`/`settleReject`.

Two kinds of events can then reach this state, in any order and number:
an inbound message on the response topic, and the timer firing.  On a
message, dispatch matches the `responseTopic` key (the topic carries a
fresh guid, so no other pattern is involved) and calls the stored handler:
`$handler` clears the timer, sets the table entry to `undefined`, applies
`options.format` and resolves; if the entry is already `undefined`,
`handler.call` throws a TypeError inside the listener, leaving this state
unchanged.  On timer expiry the callback (lines 354-357) only calls
`reject(new Error('Timeout error'))` — it does not touch the handler table.
-/

/-- The settlement state of the ES promise returned by `request()`. -/
inductive PromiseState where
  | pending : PromiseState
  | resolved : JsValue → PromiseState
  | rejected : String → PromiseState
deriving Repr

/-- `resolve(v)`: takes effect only on a pending promise (ES semantics). -/
def settleResolve (p : PromiseState) (v : JsValue) : PromiseState :=
  match p with
  | .pending => .resolved v
  | other => other

/-- `reject(e)`: takes effect only on a pending promise (ES semantics). -/
def settleReject (p : PromiseState) (e : String) : PromiseState :=
  match p with
  | .pending => .rejected e
  | other => other

/-- The state of one pending request: the handler-table slot for its
response topic (`some ()` = `$handler` stored, `none` = overwritten with
`undefined`), whether the timeout timer is still scheduled, the promise,
and how many times `$handler` has been invoked by dispatch. -/
structure ReqState where
  handlerSlot : Option Unit
  timerActive : Bool
  promise : PromiseState
  handlerRuns : Nat
deriving Repr

/-- The state right after the synchronous part of `request()` with a
positive `timeoutResponseAfter`: `$handler` subscribed on the response
topic, the timer scheduled, the promise pending. -/
def initReqState : ReqState :=
  { handlerSlot := some (), timerActive := true, promise := .pending,
    handlerRuns := 0 }

/-- An event that can reach a pending request: a message arriving on its
response topic carrying payload `v`, or the timeout timer firing. -/
inductive ReqEvent where
  | response : JsValue → ReqEvent
  | timerFire : ReqEvent

/-- One event processed against the request state, translated from
`$handler` (lines 337-351), the timeout callback (lines 354-357) and the
dispatch loop (lines 549-596).  `fmt` is `options.format`. -/
def reqStep (fmt : JsValue → JsValue) (s : ReqState) : ReqEvent → ReqState
  | .response v =>
    match s.handlerSlot with
    | some _ =>
      { s with
        timerActive := false,
        handlerSlot := none,
        promise := settleResolve s.promise (fmt v),
        handlerRuns := s.handlerRuns + 1 }
    | none => s
  | .timerFire =>
    if s.timerActive then
      { s with timerActive := false, promise := settleReject s.promise "Timeout error" }
    else s

/-- The request state after a sequence of events from the initial state. -/
def runReq (fmt : JsValue → JsValue) (evs : List ReqEvent) : ReqState :=
  evs.foldl (reqStep fmt) initReqState

/-- A settled promise is never changed by any later event. -/
theorem reqStep_settled_stable (fmt : JsValue → JsValue) (s : ReqState)
    (ev : ReqEvent) (h : s.promise ≠ .pending) :
    (reqStep fmt s ev).promise = s.promise := by
  cases ev with
  | response v =>
    cases hs : s.handlerSlot with
    | some u =>
      simp only [reqStep, hs]
      cases hp : s.promise with
      | pending => exact absurd hp h
      | resolved w => simp [settleResolve]
      | rejected e => simp [settleResolve]
    | none => simp [reqStep, hs]
  | timerFire =>
    by_cases ht : s.timerActive
    · simp only [reqStep, if_pos ht]
      cases hp : s.promise with
      | pending => exact absurd hp h
      | resolved w => simp [settleReject]
      | rejected e => simp [settleReject]
    · simp [reqStep, ht]

theorem foldl_settled_stable (fmt : JsValue → JsValue) (evs : List ReqEvent)
    (s : ReqState) (h : s.promise ≠ .pending) :
    (evs.foldl (reqStep fmt) s).promise = s.promise := by
  induction evs generalizing s with
  | nil => rfl
  | cons ev rest ih =>
    have h1 := reqStep_settled_stable fmt s ev h
    rw [List.foldl_cons, ih (reqStep fmt s ev) (by rw [h1]; exact h), h1]

/-- Claim C1: for a request with a positive `timeoutResponseAfter`, exactly
one of resolution-with-a-response and rejection-with-Timeout takes effect
on the returned promise, never both, whatever the interleaving of response
arrival and timer expiry: whichever of the two events reaches the pending
request first settles the promise (a response resolves it with the
formatted payload, the timer rejects it with the Timeout error), and no
sequence of later events changes that settlement. -/
theorem request_first_event_settles (fmt : JsValue → JsValue)
    (e : ReqEvent) (es : List ReqEvent) :
    (runReq fmt (e :: es)).promise =
      match e with
      | .response v => .resolved (fmt v)
      | .timerFire => .rejected "Timeout error" := by
  cases e with
  | response v =>
    have h1 : (reqStep fmt initReqState (.response v)).promise = .resolved (fmt v) := by
      simp [reqStep, initReqState, settleResolve]
    rw [runReq, List.foldl_cons,
      foldl_settled_stable fmt es _ (by rw [h1]; intro hc; cases hc), h1]
  | timerFire =>
    have h1 : (reqStep fmt initReqState .timerFire).promise = .rejected "Timeout error" := by
      simp [reqStep, initReqState, settleReject]
    rw [runReq, List.foldl_cons,
      foldl_settled_stable fmt es _ (by rw [h1]; intro hc; cases hc), h1]

/-- Claim C2 counterexample: when the timer fires before any response, the
timeout callback only rejects — it does not remove the transient handler.
After `[timerFire]` the handler-table slot for the response topic still
holds `$handler` (the claim says it was removed), and a response arriving
after the timeout IS dispatched to that handler — `handlerRuns` becomes 1,
not the 0 the claim requires. -/
theorem request_timeout_counterexample :
    (runReq (fun v => v) [.timerFire]).handlerSlot = some () ∧
    (runReq (fun v => v) [.timerFire, .response (.vObj [])]).handlerRuns = 1 := by
  constructor <;> rfl

/-- Claim C2 amended: when the timer fires before any response, the
transient handler is NOT removed: it stays registered for the response
topic, so a response arriving after the timeout is dispatched to that
handler (which only then unregisters itself); the late dispatch cannot
change the outcome — the promise remains rejected with the Timeout error
after any continuation. -/
theorem request_timeout_leaves_handler (fmt : JsValue → JsValue)
    (v : JsValue) (es : List ReqEvent) :
    (runReq fmt [.timerFire]).handlerSlot = some () ∧
    (runReq fmt [.timerFire, .response v]).handlerRuns = 1 ∧
    (runReq fmt [.timerFire, .response v]).handlerSlot = none ∧
    (runReq fmt (.timerFire :: .response v :: es)).promise =
      .rejected "Timeout error" := by
  refine ⟨rfl, ?_, ?_, ?_⟩
  · simp [runReq, reqStep, initReqState]
  · simp [runReq, reqStep, initReqState]
  · have h1 : (reqStep fmt initReqState .timerFire).promise = .rejected "Timeout error" := by
      simp [reqStep, initReqState, settleReject]
    have h2 : (reqStep fmt (reqStep fmt initReqState .timerFire)
        (.response v)).promise = .rejected "Timeout error" := by
      rw [reqStep_settled_stable fmt _ _ (by rw [h1]; intro hc; cases hc), h1]
    rw [runReq, List.foldl_cons, List.foldl_cons,
      foldl_settled_stable fmt es _ (by rw [h2]; intro hc; cases hc), h2]

/-!
Transform pipeline, embedded from `src/unnamed/part_000` lines 466-509 and
the transform factories in `src/unnamed/part_000` lines 25-41 and 67-83
(`ensure.timestamp` and `ensure.uuid`).  Under the default configuration
the factory options are the defaults (`fieldName: 'uuid'` with `getId`
generating a uuid.v4, `fieldName: 'timestamp'` with `genTimestamp`
returning `Date.now()`), and the installed pipeline is
`[ensure-uuid, ensure-timestamp, serialize]` in that order.  The external
generators are parameters (`getId`, `genTimestamp`) of the embedding.
-/

/-- JSON string escaping for one character, as `JSON.stringify` performs on
string values. -/
def escapeChar (c : Char) : List Char :=
  if c = '"' then ['\\', '"']
  else if c = '\\' then ['\\', '\\']
  else if c = '\n' then ['\\', 'n']
  else if c = '\r' then ['\\', 'r']
  else if c = '\t' then ['\\', 't']
  else [c]

/-- A JSON-quoted string literal. -/
def jsonQuote (s : String) : String :=
  String.mk ('"' :: s.data.foldr (fun c acc => escapeChar c ++ acc) ['"'])

/-- `JSON.stringify` on the embedded values (object fields in insertion
order, as JS does). -/
def jsonStringify : JsValue → String
  | .vNull => "null"
  | .vBool b => if b then "true" else "false"
  | .vNum n => toString n
  | .vStr s => jsonQuote s
  | .vArr xs =>
    "[" ++ String.intercalate "," (xs.attach.map fun x => jsonStringify x.1) ++ "]"
  | .vObj fs =>
    "\x7b" ++ String.intercalate ","
      (fs.attach.map fun p => jsonQuote p.1.1 ++ ":" ++ jsonStringify p.1.2) ++ "\x7d"
decreasing_by
  · have := List.sizeOf_lt_of_mem x.2
    simp at this ⊢
    omega
  · obtain ⟨⟨k, v⟩, hm⟩ := p
    have := List.sizeOf_lt_of_mem hm
    simp at this ⊢
    omega

/-- The `$transform` returned by the ensure-* factories:
`if (!data[fieldName]) data[fieldName] = gen(); return data;`.
The factories are only ever applied to object payloads by the default
pipeline; non-objects are returned unchanged here and are exercised by no
claim. -/
def ensureField (fieldName : String) (gen : Unit → JsValue) (data : JsValue) : JsValue :=
  match data with
  | .vObj fs =>
    match getField fs fieldName with
    | some v => if truthy v then .vObj fs else .vObj (setField fs fieldName (gen ()))
    | none => .vObj (setField fs fieldName (gen ()))
  | other => other

/-- The default `ensure.uuid` transform (field name `uuid`, generator
`getId`, by default uuid.v4 from the external uuid library). -/
def ensureUuidTransform (getId : Unit → String) : JsValue → JsValue :=
  ensureField "uuid" (fun u => .vStr (getId u))

/-- The default `ensure.timestamp` transform (field name `timestamp`,
generator `genTimestamp`, by default `Date.now()`). -/
def ensureTimestampTransform (genTimestamp : Unit → Int) : JsValue → JsValue :=
  ensureField "timestamp" (fun u => .vNum (genTimestamp u))

/-- The third default transform (lines 507-509):
`data => JSON.stringify(data)`. -/
def serializeTransform (data : JsValue) : JsValue :=
  .vStr (jsonStringify data)

/-- The default transform pipeline installed at construction
(lines 500-509), in registration order. -/
def defaultTransforms (getId : Unit → String) (genTimestamp : Unit → Int) :
    List (JsValue → JsValue) :=
  [ensureUuidTransform getId, ensureTimestampTransform genTimestamp, serializeTransform]

/-- `pubsub.applyTransforms` (lines 473-475): a left fold of the registered
transforms over the payload, in registration order. -/
def applyTransforms (txs : List (JsValue → JsValue)) (data : JsValue) : JsValue :=
  txs.foldl (fun d tx => tx d) data

/-- Claim C7 counterexample: the payload `\x7b uuid: "" \x7d` already has a
`uuid` field, yet the default pipeline does not leave its value unchanged:
the ensure-uuid transform tests JS truthiness (`!data[fieldName]`), the
empty string is falsy, and the field is overwritten with the generated id
(here `"generated-id"` standing for the uuid.v4 output, which is never
`""`). -/
theorem pipeline_uuid_overwritten_counterexample :
    applyTransforms (defaultTransforms (fun _ => "generated-id") (fun _ => 5))
        (.vObj [("uuid", .vStr "")]) =
      .vStr (jsonStringify (.vObj
        [("uuid", .vStr "generated-id"), ("timestamp", .vNum 5)])) ∧
    ("" : String) ≠ "generated-id" := by
  constructor
  · rfl
  · decide

/-- Claim C7 amended: under the default configuration, publishing `\x7b\x7d`
yields the serialized form of an object carrying the generated (non-empty)
uuid and the generated numeric timestamp; and for every payload object
whose `uuid` field holds a truthy value (in particular any non-empty
string), the pipeline leaves that field's value unchanged.  (A falsy
`uuid` — empty string, 0, false, null — is overwritten, per the
counterexample.) -/
theorem default_pipeline_props (getId : Unit → String) (genTimestamp : Unit → Int)
    (hid : getId () ≠ "") :
    (∃ fs, applyTransforms (defaultTransforms getId genTimestamp) (.vObj []) =
        .vStr (jsonStringify (.vObj fs)) ∧
      getField fs "uuid" = some (.vStr (getId ())) ∧
      truthy (.vStr (getId ())) = true ∧
      getField fs "timestamp" = some (.vNum (genTimestamp ()))) ∧
    (∀ fs v, getField fs "uuid" = some v → truthy v = true →
      ∃ fs', applyTransforms (defaultTransforms getId genTimestamp) (.vObj fs) =
          .vStr (jsonStringify (.vObj fs')) ∧
        getField fs' "uuid" = some v) := by
  constructor
  · refine ⟨[("uuid", .vStr (getId ())), ("timestamp", .vNum (genTimestamp ()))],
      rfl, rfl, ?_, rfl⟩
    simpa [truthy] using hid
  · intro fs v hv htr
    have huuid : ensureUuidTransform getId (.vObj fs) = .vObj fs := by
      simp [ensureUuidTransform, ensureField, hv, htr]
    cases hts : getField fs "timestamp" with
    | none =>
      refine ⟨setField fs "timestamp" (.vNum (genTimestamp ())), ?_, ?_⟩
      · simp [applyTransforms, defaultTransforms, huuid, ensureTimestampTransform,
          ensureField, hts, serializeTransform]
      · rw [getField_setField_ne fs "timestamp" "uuid" _ (by decide)]
        exact hv
    | some w =>
      by_cases htw : truthy w = true
      · refine ⟨fs, ?_, hv⟩
        simp [applyTransforms, defaultTransforms, huuid, ensureTimestampTransform,
          ensureField, hts, htw, serializeTransform]
      · refine ⟨setField fs "timestamp" (.vNum (genTimestamp ())), ?_, ?_⟩
        · simp [applyTransforms, defaultTransforms, huuid, ensureTimestampTransform,
            ensureField, hts, htw, serializeTransform]
        · rw [getField_setField_ne fs "timestamp" "uuid" _ (by decide)]
          exact hv

theorem default_pipeline_props_witness :
    ∃ fs', applyTransforms (defaultTransforms (fun _ => "id0") (fun _ => 7))
        (.vObj [("uuid", .vStr "u1")]) = .vStr (jsonStringify (.vObj fs')) ∧
      getField fs' "uuid" = some (.vStr "u1") :=
  (default_pipeline_props (fun _ => "id0") (fun _ => 7) (by decide)).2
    [("uuid", .vStr "u1")] (.vStr "u1") rfl rfl

/-!
Response middleware, embedded from `pubsub.applyResponseMiddleware`,
`src/unnamed/part_000` lines 484-495.
-/

/-- `pubsub.applyResponseMiddleware(data, error)`: when at least one
middleware is registered, reduce the registered middleware functions in
registration order starting from a fresh empty object, each receiving
`(accumulatedResponse, originalData, originalError)`; otherwise return
`data` unchanged. -/
def applyResponseMiddleware (mws : List (JsValue → JsValue → JsValue → JsValue))
    (data error : JsValue) : JsValue :=
  if mws.length > 0 then
    mws.foldl (fun response m => m response data error) (.vObj [])
  else data

/-- Claim C8: with at least one middleware registered,
`applyResponseMiddleware` is the left fold of the middlewares in
registration order starting from an empty object (never from `data`); with
none registered it returns `data` unchanged; and the spec's concrete
example (m1 sets `a := 1`, m2 sets `b := 2`) yields the object
`\x7b a: 1, b: 2 \x7d` for every `data` and `error`. -/
theorem response_middleware_spec :
    (∀ (mws : List (JsValue → JsValue → JsValue → JsValue)) (data error : JsValue),
      mws ≠ [] →
      applyResponseMiddleware mws data error =
        mws.foldl (fun response m => m response data error) (.vObj [])) ∧
    (∀ data error : JsValue, applyResponseMiddleware [] data error = data) ∧
    (∀ data error : JsValue,
      applyResponseMiddleware
        [fun r _ _ => match r with
          | .vObj fs => .vObj (setField fs "a" (.vNum 1))
          | x => x,
         fun r _ _ => match r with
          | .vObj fs => .vObj (setField fs "b" (.vNum 2))
          | x => x]
        data error = .vObj [("a", .vNum 1), ("b", .vNum 2)]) := by
  refine ⟨?_, fun data error => rfl, fun data error => rfl⟩
  intro mws data error h
  have hpos : mws.length > 0 := List.length_pos.mpr h
  simp [applyResponseMiddleware, hpos]

theorem response_middleware_spec_witness :
    applyResponseMiddleware [fun r _ _ => r] (.vNum 3) .vNull =
      [fun (r _ _ : JsValue) => r].foldl
        (fun response m => m response (.vNum 3) .vNull) (.vObj []) :=
  response_middleware_spec.1 [fun r _ _ => r] (.vNum 3) .vNull (by simp)

/-!
`JSON.parse`, modelled from the environment as an executable parser of the
JSON grammar (the builtin is not JS code of this repository).  `none`
stands for the SyntaxError throw.  Values with a fraction or exponent are
accepted and truncated to their integer part: no claim inspects
non-integer numeric values, only acceptance vs. rejection and
object-shaped results matter here.
-/

/-- The JSON whitespace characters accepted between tokens. -/
def isJsonWs (c : Char) : Bool :=
  c = ' ' || c = '\t' || c = '\n' || c = '\r'

/-- Drop leading JSON whitespace. -/
def skipWs : List Char → List Char
  | [] => []
  | c :: cs => if isJsonWs c then skipWs cs else c :: cs

/-- Value of one hex digit. -/
def hexVal (c : Char) : Option Nat :=
  if '0' ≤ c ∧ c ≤ '9' then some (c.toNat - '0'.toNat)
  else if 'a' ≤ c ∧ c ≤ 'f' then some (c.toNat - 'a'.toNat + 10)
  else if 'A' ≤ c ∧ c ≤ 'F' then some (c.toNat - 'A'.toNat + 10)
  else none

def isDigitChar (c : Char) : Bool := '0' ≤ c && c ≤ '9'

/-- Accumulate a decimal digit run into a number. -/
def digitsVal : List Char → Nat → Nat
  | [], acc => acc
  | c :: cs, acc => digitsVal cs (acc * 10 + (c.toNat - '0'.toNat))

/-- Parse the body of a JSON string after the opening quote, returning the
unescaped content and the input after the closing quote.  The fuel is
consumed once per character group, so input-length fuel suffices. -/
def parseStringBody : Nat → List Char → Option (List Char × List Char)
  | 0, _ => none
  | _ + 1, [] => none
  | fuel + 1, c :: cs =>
    if c = '"' then some ([], cs)
    else if c = '\\' then
      match cs with
      | [] => none
      | e :: cs' =>
        let esc : Option (Char × List Char) :=
          if e = '"' then some ('"', cs')
          else if e = '\\' then some ('\\', cs')
          else if e = '/' then some ('/', cs')
          else if e = 'b' then some ('\x08', cs')
          else if e = 'f' then some ('\x0c', cs')
          else if e = 'n' then some ('\n', cs')
          else if e = 'r' then some ('\r', cs')
          else if e = 't' then some ('\t', cs')
          else if e = 'u' then
            match cs' with
            | h1 :: h2 :: h3 :: h4 :: cs'' =>
              match hexVal h1, hexVal h2, hexVal h3, hexVal h4 with
              | some a, some b, some c2, some d =>
                some (Char.ofNat (((a * 16 + b) * 16 + c2) * 16 + d), cs'')
              | _, _, _, _ => none
            | _ => none
          else none
        match esc with
        | none => none
        | some (ch, rest) =>
          match parseStringBody fuel rest with
          | none => none
          | some (body, r) => some (ch :: body, r)
    else if c.toNat < 32 then none
    else
      match parseStringBody fuel cs with
      | none => none
      | some (body, r) => some (c :: body, r)

/-- Parse a JSON number (grammar check per RFC 8259: optional minus,
integer part without leading zeros, optional fraction, optional exponent);
the returned value is the signed integer part. -/
def parseNumberSyntax (cs : List Char) : Option (JsValue × List Char) :=
  let signSplit : Bool × List Char :=
    match cs with
    | '-' :: rest => (true, rest)
    | _ => (false, cs)
  let neg := signSplit.1
  let cs1 := signSplit.2
  match cs1 with
  | [] => none
  | c :: _ =>
    if !isDigitChar c then none
    else
      let ds := cs1.takeWhile isDigitChar
      let cs2 := cs1.dropWhile isDigitChar
      if ds.length > 1 ∧ ds.headD '0' = '0' then none
      else
        let afterFrac : Option (List Char) :=
          match cs2 with
          | '.' :: cs3 =>
            let fs := cs3.takeWhile isDigitChar
            let cs4 := cs3.dropWhile isDigitChar
            if fs.isEmpty then none else some cs4
          | _ => some cs2
        match afterFrac with
        | none => none
        | some cs5 =>
          let afterExp : Option (List Char) :=
            match cs5 with
            | e :: cs6 =>
              if e = 'e' ∨ e = 'E' then
                let cs7 :=
                  match cs6 with
                  | s :: rest => if s = '+' ∨ s = '-' then rest else cs6
                  | [] => cs6
                let es := cs7.takeWhile isDigitChar
                let cs8 := cs7.dropWhile isDigitChar
                if es.isEmpty then none else some cs8
              else some cs5
            | [] => some cs5
          match afterExp with
          | none => none
          | some cs9 =>
            let n : Int := Int.ofNat (digitsVal ds 0)
            some (.vNum (if neg then -n else n), cs9)

mutual

/-- Parse one JSON value.  Fuel is consumed on every recursion into a
nested value; each unit of fuel corresponds to at least one consumed input
character, so input-length fuel suffices. -/
def parseValue : Nat → List Char → Option (JsValue × List Char)
  | 0, _ => none
  | fuel + 1, cs =>
    match skipWs cs with
    | [] => none
    | c :: cs' =>
      if c = 'n' then
        match cs' with
        | 'u' :: 'l' :: 'l' :: rest => some (.vNull, rest)
        | _ => none
      else if c = 't' then
        match cs' with
        | 'r' :: 'u' :: 'e' :: rest => some (.vBool true, rest)
        | _ => none
      else if c = 'f' then
        match cs' with
        | 'a' :: 'l' :: 's' :: 'e' :: rest => some (.vBool false, rest)
        | _ => none
      else if c = '"' then
        match parseStringBody (cs'.length + 1) cs' with
        | some (body, rest) => some (.vStr (String.mk body), rest)
        | none => none
      else if c = '[' then
        match skipWs cs' with
        | ']' :: rest => some (.vArr [], rest)
        | _ => parseElemsFrom fuel cs' []
      else if c = '\x7b' then
        match skipWs cs' with
        | '\x7d' :: rest => some (.vObj [], rest)
        | _ => parseMembersFrom fuel cs' []
      else if c = '-' || isDigitChar c then parseNumberSyntax (c :: cs')
      else none

/-- Parse the elements of a non-empty JSON array after the opening
bracket. -/
def parseElemsFrom : Nat → List Char → List JsValue → Option (JsValue × List Char)
  | 0, _, _ => none
  | fuel + 1, cs, acc =>
    match parseValue fuel cs with
    | none => none
    | some (v, rest) =>
      match skipWs rest with
      | ',' :: rest' => parseElemsFrom fuel rest' (acc ++ [v])
      | ']' :: rest' => some (.vArr (acc ++ [v]), rest')
      | _ => none

/-- Parse the members of a non-empty JSON object after the opening
brace. -/
def parseMembersFrom : Nat → List Char → List (String × JsValue) →
    Option (JsValue × List Char)
  | 0, _, _ => none
  | fuel + 1, cs, acc =>
    match skipWs cs with
    | '"' :: cs' =>
      match parseStringBody (cs'.length + 1) cs' with
      | none => none
      | some (key, rest) =>
        match skipWs rest with
        | ':' :: rest' =>
          match parseValue fuel rest' with
          | none => none
          | some (v, rest2) =>
            match skipWs rest2 with
            | ',' :: rest3 => parseMembersFrom fuel rest3 (acc ++ [(String.mk key, v)])
            | '\x7d' :: rest3 => some (.vObj (acc ++ [(String.mk key, v)]), rest3)
            | _ => none
        | _ => none
    | _ => none

end

/-- Modelled from the environment: `JSON.parse(s)` — `some` of the parsed
value when `s` is valid JSON, `none` when `JSON.parse` would throw a
SyntaxError (including trailing non-whitespace). -/
def jsonParse (s : String) : Option JsValue :=
  match parseValue (s.length + 1) s.data with
  | some (v, rest) => if (skipWs rest).isEmpty then some v else none
  | none => none

theorem jsonParse_object_example :
    jsonParse "\x7b\"a\":1,\"b\":[true,null]\x7d" =
      some (.vObj [("a", .vNum 1), ("b", .vArr [.vBool true, .vNull])]) := by
  rfl

theorem jsonParse_invalid_examples :
    jsonParse "\x7b" = none ∧ jsonParse "hello" = none ∧
    jsonParse "\x7b\"a\":\x7d" = none ∧ jsonParse "01" = none := by
  refine ⟨rfl, rfl, rfl, rfl⟩

/-!
Payload preparation for `pubsub.request`, embedded from
`src/unnamed/part_000` lines 320-335 (`request`, synchronous part) and
lines 385-390 (`_appendToPayload`).
-/

/-- Modelled from the spec: the `gextend` dependency is not in this
repository's sources.  `extend(\x7b\x7d, data, payload)` merges the own
fields of each source left to right into a fresh object, later sources
winning on key collision — per spec section 4.4 step 3, injected
correlation fields act as defaults and caller-supplied payload fields win. -/
def extendFields (target : List (String × JsValue)) (src : List (String × JsValue)) :
    List (String × JsValue) :=
  src.foldl (fun acc p => setField acc p.1 p.2) target

/-- The `data` argument of `request()`/`_appendToPayload`: a string or a
structured value. -/
inductive PayloadArg where
  | raw : String → PayloadArg
  | val : JsValue → PayloadArg

/-- `pubsub._appendToPayload(payload, data)`: the empty string becomes an
empty object; any other string goes through `JSON.parse`, whose SyntaxError
throw is the `Except.error`; the parsed or structured payload is then
merged over `data` into a fresh object (payload fields win).  A payload
that is not an object contributes no own fields to the merge; no claim
exercises non-object payloads. -/
def appendToPayload (payload : PayloadArg) (data : List (String × JsValue)) :
    Except String JsValue :=
  let parsed : Except String JsValue :=
    match payload with
    | .raw s =>
      if s = "" then .ok (.vObj [])
      else
        match jsonParse s with
        | some v => .ok v
        | none => .error "SyntaxError"
    | .val v => .ok v
  parsed.map fun p =>
    match p with
    | .vObj pfs => .vObj (extendFields (extendFields [] data) pfs)
    | _ => .vObj (extendFields [] data)

/-- The outcome of the synchronous prefix of `request()`: the derived
response topic and the merged outbound payload, ready for the Promise
constructor. -/
structure RequestSetup where
  responseTopic : String
  payload : JsValue
deriving Repr

/-- The synchronous part of `pubsub.request(topic, data, options)` (lines
320-335): derive the response topic `topic/res/guid` from the correlation
guid, merge it into the payload under `options.topicKey` via
`_appendToPayload`, and only then construct the Promise.  A `JSON.parse`
throw inside `_appendToPayload` therefore escapes `request()` synchronously
before any promise exists: that throw is the `Except.error`. -/
def requestSync (topic : String) (dataArg : PayloadArg) (topicKey guid : String) :
    Except String RequestSetup :=
  let responseTopic := topic ++ "/res/" ++ guid
  (appendToPayload dataArg [(topicKey, .vStr responseTopic)]).map
    fun payload => { responseTopic := responseTopic, payload := payload }

theorem getField_none_not_mem (fs : List (String × JsValue)) (k : String)
    (h : getField fs k = none) : k ∉ fs.map Prod.fst := by
  induction fs with
  | nil => simp
  | cons p rest ih =>
    obtain ⟨k0, v0⟩ := p
    by_cases hk : k0 == k
    · rw [getField, if_pos hk] at h
      cases h
    · rw [getField, if_neg hk] at h
      simp only [List.map_cons, List.mem_cons]
      rintro (hc | hc)
      · exact absurd (by simpa using hc.symm : (k0 == k) = true) (by simpa using hk)
      · exact ih h hc

theorem getField_extendFields_not_mem (src target : List (String × JsValue))
    (k : String) (h : k ∉ src.map Prod.fst) :
    getField (extendFields target src) k = getField target k := by
  induction src generalizing target with
  | nil => rfl
  | cons p rest ih =>
    obtain ⟨k0, v0⟩ := p
    have hk0 : k0 ≠ k := by
      intro hc
      exact h (by simp [hc])
    have hrest : k ∉ rest.map Prod.fst := by
      intro hc
      exact h (by simp [hc])
    show getField (extendFields (setField target k0 v0) rest) k = getField target k
    rw [ih (setField target k0 v0) hrest, getField_setField_ne _ _ _ _ hk0]

theorem getField_extendFields_mem (src target : List (String × JsValue))
    (k : String) (v : JsValue) (hnd : (src.map Prod.fst).Nodup)
    (h : getField src k = some v) :
    getField (extendFields target src) k = some v := by
  induction src generalizing target with
  | nil => simp [getField] at h
  | cons p rest ih =>
    obtain ⟨k0, v0⟩ := p
    simp only [List.map_cons, List.nodup_cons] at hnd
    by_cases hk : k0 == k
    · have hk' : k0 = k := by simpa using hk
      have hv : v0 = v := by
        rw [getField, if_pos hk] at h
        exact Option.some.inj h
      subst hk' hv
      show getField (extendFields (setField target k0 v0) rest) k0 = some v0
      rw [getField_extendFields_not_mem rest _ k0 hnd.1,
        getField_setField_self]
    · have h' : getField rest k = some v := by
        rw [getField, if_neg (by simpa using hk)] at h
        exact h
      show getField (extendFields (setField target k0 v0) rest) k = some v
      exact ih (setField target k0 v0) hnd.2 h'

/-- Claim C9: for an object payload (or a JSON string decoding to one), the
merged outbound payload of `request()` retains every field of the caller's
data with its original value — in particular a caller-supplied field named
by `options.topicKey` wins over the generated response topic — and the
response-topic field is added exactly when the caller's data lacks it. -/
theorem request_payload_merge (fs : List (String × JsValue))
    (topic topicKey guid : String) (hnd : (fs.map Prod.fst).Nodup) :
    (∃ fs', requestSync topic (.val (.vObj fs)) topicKey guid =
        .ok { responseTopic := topic ++ "/res/" ++ guid, payload := .vObj fs' } ∧
      (∀ k v, getField fs k = some v → getField fs' k = some v) ∧
      (getField fs topicKey = none →
        getField fs' topicKey = some (.vStr (topic ++ "/res/" ++ guid)))) ∧
    (∀ s, s ≠ "" → jsonParse s = some (.vObj fs) →
      requestSync topic (.raw s) topicKey guid =
        requestSync topic (.val (.vObj fs)) topicKey guid) := by
  constructor
  · refine ⟨extendFields [(topicKey, .vStr (topic ++ "/res/" ++ guid))] fs,
      rfl, ?_, ?_⟩
    · intro k v hv
      exact getField_extendFields_mem fs _ k v hnd hv
    · intro habs
      have hnm : topicKey ∉ fs.map Prod.fst := getField_none_not_mem fs topicKey habs
      rw [getField_extendFields_not_mem fs _ topicKey hnm]
      simp [getField]
  · intro s hs hp
    simp [requestSync, appendToPayload, hs, hp]

theorem request_payload_merge_witness :
    ∃ fs', requestSync "svc/op" (.val (.vObj [("x", .vNum 1)])) "respondTo" "g1" =
        .ok { responseTopic := "svc/op/res/g1", payload := .vObj fs' } ∧
      (∀ k v, getField [("x", .vNum 1)] k = some v → getField fs' k = some v) ∧
      (getField [("x", .vNum 1)] "respondTo" = none →
        getField fs' "respondTo" = some (.vStr "svc/op/res/g1")) :=
  (request_payload_merge [("x", .vNum 1)] "svc/op" "respondTo" "g1" (by simp)).1

/-- Claim C10: for every string `data` that is neither empty nor valid
JSON, `request(topic, data)` throws synchronously — the `JSON.parse` inside
`_appendToPayload` runs before the Promise is constructed, so the caller
gets a thrown SyntaxError, not a rejected promise. -/
theorem request_invalid_json_throws (topic topicKey guid s : String)
    (hne : s ≠ "") (hbad : jsonParse s = none) :
    requestSync topic (.raw s) topicKey guid = .error "SyntaxError" := by
  simp [requestSync, appendToPayload, hne, hbad, Except.map]

theorem request_invalid_json_throws_witness :
    requestSync "svc/op" (.raw "\x7b") "respondTo" "g1" = .error "SyntaxError" :=
  request_invalid_json_throws "svc/op" "respondTo" "g1" "\x7b" (by decide) rfl

end PubSubMQTT
